import Mathlib

/-!
Shallow embedding of the baresip video core: the avcodec payload codec
module (src/modules/avcodec/decode.c, src/modules/avcodec/encode.c) and
the generic video stream pipeline (src/src/video.c), together with
theorems about the embedded functions.

Bytes are modelled as `Nat` (values are reduced mod 256 where the C code
truncates); buffers (`struct mbuf`) are modelled as `List Nat`, with the
read position expressed by passing the not-yet-consumed suffix.  External
collaborators (the libavcodec engine, filters, allocation) are parameters
of the embedded functions.  Helpers from the libre support library that
are not part of this repository's sources (h26x header codecs, `pl_u32`,
`fmt_param_apply`, ...) are modelled from the spec, as marked on each.
-/

/-- POSIX-style error codes returned by the C functions (`ok` stands for 0). -/
inductive Cerr where
  | ok
  | einval
  | enomem
  | enoent
  | eproto
  | ebadmsg

/-- H.264 NAL header fields: forbidden bit `f`, importance indicator `nri`,
5-bit NAL `type`. -/
structure H264Hdr where
  f : Nat
  nri : Nat
  type : Nat

/-- Modelled from the spec: parsing of the one-byte H.264 NAL header
(libre h26x helper `h264_hdr_decode`, not under src/): bit 7 is the
forbidden bit, bits 5..6 the NRI, bits 0..4 the type. -/
def h264_hdr_parse (b : Nat) : H264Hdr :=
  { f := b / 128 % 2, nri := b / 32 % 4, type := b % 32 }

/-- `h264_hdr_decode` reads one byte from the source buffer and parses it;
an empty buffer is a read underflow, reported as an error. -/
def h264_hdr_decode (src : List Nat) : Option (H264Hdr × List Nat) :=
  match src with
  | [] => none
  | b :: rest => some (h264_hdr_parse b, rest)

/-- Modelled from the spec: re-encoding of a NAL header byte
(libre h26x helper `h264_hdr_encode`, not under src/). -/
def h264_hdr_encode_byte (h : H264Hdr) : Nat :=
  h.f % 2 * 128 + h.nri % 4 * 32 + h.type % 32

/-- H.264 FU (fragmentation unit) header fields: start bit `s`, end bit
`e`, original 5-bit NAL `type`. -/
structure FuHdr where
  s : Bool
  e : Bool
  type : Nat

/-- Modelled from the spec: parsing of the one-byte FU header
(libre h26x helper `fu_hdr_decode`, not under src/): bit 7 start, bit 6
end, bits 0..4 the original NAL type. -/
def fu_hdr_parse (b : Nat) : FuHdr :=
  { s := b / 128 % 2 == 1, e := b / 64 % 2 == 1, type := b % 32 }

/-- `fu_hdr_decode` reads one byte and parses it as an FU header. -/
def fu_hdr_decode (src : List Nat) : Option (FuHdr × List Nat) :=
  match src with
  | [] => none
  | b :: rest => some (fu_hdr_parse b, rest)

/-- NAL unit type numbers used by decode.c (from the H.264 payload format). -/
def H264_NAL_SPS : Nat := 7

def H264_NAL_PPS : Nat := 8

def H264_NAL_FU_A : Nat := 28

/-- Receive-side decoder state (`struct viddec_state` in decode.c): the
packet accumulation buffer `mb` and the keyframe gate `got_keyframe`.
The AVCodec context itself is the external engine, passed separately. -/
structure ViddecState where
  mb : List Nat
  got_keyframe : Bool

/-- Outcome of the external codec engine (`avcodec_decode_video2`):
failure (negative return), or success optionally yielding a complete
picture (`got_picture`).  Pictures are opaque, identified by a `Nat`. -/
inductive EngineResult where
  | fail
  | ok (picture : Option Nat)

/-- `ffdecode` (decode.c lines 125-188): append the packet to the
accumulation buffer; at end-of-frame, fail with EPROTO if the keyframe
gate is closed, otherwise run the external engine on the accumulated
bytes; the buffer is always rewound at end-of-frame.  The third result
component is the output frame (`none` when no frame was produced). -/
def ffdecode (engine : List Nat → EngineResult) (st : ViddecState)
    (eof : Bool) (src : List Nat) : Cerr × ViddecState × Option Nat :=
  let st1 : ViddecState := { st with mb := st.mb ++ src }
  if !eof then (.ok, st1, none)
  else if !st1.got_keyframe then (.eproto, { st1 with mb := [] }, none)
  else
    match engine st1.mb with
    | .fail => (.ebadmsg, { st1 with mb := [] }, none)
    | .ok pic => (.ok, { st1 with mb := [] }, pic)

/-- `h264_decode` (decode.c lines 191-247): depacketize one H.264 RTP
payload into the accumulation buffer.  Returns the error, the new state
and the not-yet-consumed rest of the packet (appended afterwards by
`ffdecode`). -/
def h264_decode (st : ViddecState) (src : List Nat) :
    Cerr × ViddecState × List Nat :=
  match h264_hdr_decode src with
  | none => (.enoent, st, [])
  | some (hdr, rest) =>
    if hdr.f ≠ 0 then (.ebadmsg, st, rest)
    else if 1 ≤ hdr.type ∧ hdr.type ≤ 23 then
      let gk := st.got_keyframe || hdr.type == H264_NAL_SPS
                  || hdr.type == H264_NAL_PPS
      (.ok, { st with got_keyframe := gk,
                      mb := st.mb ++ [0, 0, 1, h264_hdr_encode_byte hdr] },
       rest)
    else if hdr.type = H264_NAL_FU_A then
      match fu_hdr_decode rest with
      | none => (.enoent, st, [])
      | some (fu, rest2) =>
        if fu.s then
          (.ok, { st with mb := st.mb ++
                    [0, 0, 1, h264_hdr_encode_byte { hdr with type := fu.type }] },
           rest2)
        else (.ok, st, rest2)
    else (.ebadmsg, st, rest)

/-- `decode_h264` (decode.c lines 250-265): the H.264 `dech` entry point.
`src = none` models a NULL packet (no data received). -/
def decode_h264 (engine : List Nat → EngineResult) (st : ViddecState)
    (eof : Bool) (_seq : Nat) (src : Option (List Nat)) :
    Cerr × ViddecState × Option Nat :=
  match src with
  | none => (.ok, st, none)
  | some s =>
    match h264_decode st s with
    | (.ok, st1, rest) => ffdecode engine st1 eof rest
    | (e, st1, _) => (e, st1, none)

/-- `decode_mpeg4` (decode.c lines 268-280): no gating, the keyframe gate
is forced open and the packet handed to `ffdecode`. -/
def decode_mpeg4 (engine : List Nat → EngineResult) (st : ViddecState)
    (eof : Bool) (_seq : Nat) (src : Option (List Nat)) :
    Cerr × ViddecState × Option Nat :=
  match src with
  | none => (.ok, st, none)
  | some s => ffdecode engine { st with got_keyframe := true } eof s

/-- H.263 RTP payload header fields used by decode.c: mode bits `f`/`p`,
the sub-byte fragmentation counts `sbit`/`ebit`, and the inter-coded
flag `i` (0 = intra picture). -/
structure H263Hdr where
  f : Nat
  p : Nat
  sbit : Nat
  ebit : Nat
  i : Nat

/-- Modelled from the spec: `h263_hdr_decode` (libre h26x helper, not
under src/) decodes the RFC 2190 payload header: mode from the F/P bits
(mode A consumes 4 bytes, mode B 8, mode C 12), SBIT from bits 27..29 and
EBIT from bits 24..26 of the first word, and the intra/inter flag I. -/
def h263_hdr_decode (src : List Nat) : Option (H263Hdr × List Nat) :=
  match src with
  | b0 :: b1 :: _b2 :: _b3 :: rest =>
    let f := b0 / 128 % 2
    let p := b0 / 64 % 2
    let sbit := b0 / 8 % 8
    let ebit := b0 % 8
    if f = 0 then
      some ({ f := f, p := p, sbit := sbit, ebit := ebit,
              i := b1 / 16 % 2 }, rest)
    else
      match rest with
      | c0 :: _c1 :: _c2 :: _c3 :: rest2 =>
        let hdr : H263Hdr :=
          { f := f, p := p, sbit := sbit, ebit := ebit, i := c0 / 128 % 2 }
        if p = 0 then some (hdr, rest2)
        else
          match rest2 with
          | _d0 :: _d1 :: _d2 :: _d3 :: rest3 => some (hdr, rest3)
          | _ => none
      | _ => none
  | _ => none

/-- Bitwise-OR a value into the last byte of the buffer
(`st->mb->buf[st->mb->end - 1] |= sbyte` in decode.c).  On an empty
buffer the C code writes out of bounds (undefined behaviour); the model
leaves the empty buffer unchanged, and the theorems about the merge all
assume a nonempty buffer. -/
def orLast : List Nat → Nat → List Nat
  | [], _ => []
  | [a], x => [a ||| x]
  | a :: b :: l, x => a :: orLast (b :: l) x

/-- `decode_h263` (decode.c lines 283-350): decode the payload header,
open the keyframe gate on intra pictures, merge a sub-byte fragment
boundary into the last buffered byte when SBIT is nonzero, then hand the
rest to `ffdecode`.  A read underflow of the first payload byte returns 0
in C (`mbuf_read_u8`), so OR-ing it is a no-op. -/
def decode_h263 (engine : List Nat → EngineResult) (st : ViddecState)
    (marker : Bool) (_seq : Nat) (src : Option (List Nat)) :
    Cerr × ViddecState × Option Nat :=
  match src with
  | none => (.ok, st, none)
  | some s =>
    match h263_hdr_decode s with
    | none => (.ebadmsg, st, none)
    | some (hdr, rest) =>
      let st1 : ViddecState :=
        if hdr.i = 0 then { st with got_keyframe := true } else st
      if 0 < hdr.sbit then
        match rest with
        | b :: rest2 =>
          let mask := 2 ^ (8 - hdr.sbit) - 1
          ffdecode engine { st1 with mb := orLast st1.mb (b &&& mask) }
            marker rest2
        | [] => ffdecode engine st1 marker []
      else ffdecode engine st1 marker rest

/-- ASCII lower-casing of one character. -/
def lowerChar (c : Char) : Char :=
  if 'A' ≤ c ∧ c ≤ 'Z' then Char.ofNat (c.toNat + 32) else c

/-- Case-insensitive string equality (libre `pl_strcasecmp` returning 0,
modelled from the spec; attribute names are ASCII). -/
def strCaseEq (a b : String) : Bool :=
  a.data.map lowerChar == b.data.map lowerChar

/-- Modelled from the spec: libre's `pl_u32` parses a decimal integer
from a string; a string that is not entirely decimal digits yields 0,
and the value wraps to 32 bits. -/
def pl_u32 (s : String) : Nat :=
  if s.data ≠ [] ∧ s.data.all (fun c => c.isDigit) then
    (s.data.foldl (fun acc c => acc * 10 + (c.toNat - 48)) 0) % 2 ^ 32
  else 0

/-- Hexadecimal digit value. -/
def hexDigit (c : Char) : Nat :=
  if c.isDigit then c.toNat - 48
  else if 'a' ≤ c ∧ c ≤ 'f' then c.toNat - 87
  else if 'A' ≤ c ∧ c ≤ 'F' then c.toNat - 55
  else 0

/-- Whether a character is a hexadecimal digit. -/
def isHexDigit (c : Char) : Bool :=
  c.isDigit || ('a' ≤ c && c ≤ 'f') || ('A' ≤ c && c ≤ 'F')

/-- Modelled from the spec: libre's `pl_x32` parses a hexadecimal
integer from a character slice; a slice that is not entirely hex digits
yields 0, and the value wraps to 32 bits. -/
def pl_x32 (cs : List Char) : Nat :=
  if cs ≠ [] ∧ cs.all (fun c => isHexDigit c) then
    (cs.foldl (fun acc c => acc * 16 + hexDigit c) 0) % 2 ^ 32
  else 0

/-- Reinterpret an unsigned 32-bit value as a signed C `int`
(`const int mpi = pl_u32(val)` in encode.c). -/
def uint32AsInt (n : Nat) : Int :=
  if n < 2 ^ 31 then (n : Int) else (n : Int) - 2 ^ 32

/-- H.263 picture-size enumerants (`enum h263_fmt`). -/
inductive H263Fmt where
  | sqcif
  | qcif
  | cif
  | cif4
  | cif16
  | other
  deriving DecidableEq

/-- `h263_fmt` (encode.c lines 90-98): map an fmtp attribute name to a
picture size. -/
def h263_fmt (name : String) : H263Fmt :=
  if strCaseEq name "sqcif" then .sqcif
  else if strCaseEq name "qcif" then .qcif
  else if strCaseEq name "cif" then .cif
  else if strCaseEq name "cif4" then .cif4
  else if strCaseEq name "cif16" then .cif16
  else .other

/-- One (picture size, minimum picture interval) entry (`struct picsz`). -/
structure Picsz where
  fmt : H263Fmt
  mpi : Nat

/-- Negotiated H.263 parameters: the `picszv` array with its count
`picszn` modelled as a list (capacity 8, enforced by the decoder). -/
structure H263Param where
  picszv : List Picsz

/-- Negotiated H.264 parameters (the `u.h264` union member). -/
structure H264Param where
  packetization_mode : Nat
  profile_idc : Nat
  profile_iop : Nat
  level_idc : Nat
  max_fs : Nat
  max_smbps : Nat

/-- Codec identifiers resolved from the SDP codec name. -/
inductive CodecId where
  | h263
  | h264
  | mpeg4
  deriving DecidableEq

/-- Modelled from the spec: `avcodec_resolve_codecid` (avcodec module
helper, not under src/) maps the codec name to an id; unknown names give
`none` (CODEC_ID_NONE). -/
def avcodec_resolve_codecid (name : String) : Option CodecId :=
  if strCaseEq name "H263" then some .h263
  else if strCaseEq name "H264" then some .h264
  else if strCaseEq name "MP4V-ES" then some .mpeg4
  else none

/-- Encoder parameters handed to `encode_update` (`struct videnc_param`). -/
structure VidencParam where
  bitrate : Nat
  pktsize : Nat
  fps : Nat
  max_fs : Int

/-- Transmit-side encoder state (`struct videnc_state` in encode.c).
The AVCodec/x264 contexts are external; allocation is modelled as
succeeding.  The C `u` union is dispatched on `codec_id`, so the two
views never mix and are modelled as separate fields. -/
structure VidencState where
  encprm : VidencParam
  codec_id : CodecId
  sz_max : Nat
  pts : Nat
  h263 : H263Param
  h264 : H264Param

/-- `decode_sdpparam_h263` (encode.c lines 101-127): store one
(picture size, MPI) entry; unknown names, MPI outside 1..32 and a full
table are all ignored without error.  Always returns 0. -/
def decode_sdpparam_h263 (st : VidencState) (name val : String) :
    VidencState × Cerr :=
  let fmt := h263_fmt name
  let mpi : Int := uint32AsInt (pl_u32 val)
  if fmt = .other then (st, .ok)
  else if mpi < 1 ∨ 32 < mpi then (st, .ok)
  else if 8 ≤ st.h263.picszv.length then (st, .ok)
  else
    ({ st with h263 := { picszv := st.h263.picszv ++ [⟨fmt, mpi.toNat⟩] } },
     .ok)

/-- `decode_sdpparam_h264` (encode.c lines 218-250): parse the H.264 fmtp
keys.  A nonzero packetization-mode is stored and then rejected with
EPROTO; a profile-level-id whose length is not 6 is rejected with EPROTO
(its characters are not checked for being hex digits). -/
def decode_sdpparam_h264 (st : VidencState) (name val : String) :
    VidencState × Cerr :=
  if strCaseEq name "packetization-mode" then
    let pm := pl_u32 val
    ({ st with h264 := { st.h264 with packetization_mode := pm } },
     if pm ≠ 0 then .eproto else .ok)
  else if strCaseEq name "profile-level-id" then
    if val.data.length ≠ 6 then (st, .eproto)
    else
      ({ st with h264 := { st.h264 with
          profile_idc := pl_x32 (val.data.take 2),
          profile_iop := pl_x32 ((val.data.drop 2).take 2),
          level_idc := pl_x32 (val.data.drop 4) } }, .ok)
  else if strCaseEq name "max-fs" then
    ({ st with h264 := { st.h264 with max_fs := pl_u32 val } }, .ok)
  else if strCaseEq name "max-smbps" then
    ({ st with h264 := { st.h264 with max_smbps := pl_u32 val } }, .ok)
  else (st, .ok)

/-- `param_handler` (encode.c lines 253-262): dispatch one fmtp attribute
on the codec id.  The callback type returns void, so the error from
`decode_sdpparam_h264` is discarded (the `(void)` cast in the source). -/
def param_handler (st : VidencState) (name val : String) : VidencState :=
  if st.codec_id = .h263 then (decode_sdpparam_h263 st name val).1
  else if st.codec_id = .h264 then (decode_sdpparam_h264 st name val).1
  else st

/-- Modelled from the spec: libre's `fmt_param_apply` invokes the handler
once per `name=value` attribute of the fmtp string; the attribute list is
modelled directly as name/value pairs. -/
def fmt_param_apply (attrs : List (String × String)) (st : VidencState) :
    VidencState :=
  attrs.foldl (fun s nv => param_handler s nv.1 nv.2) st

/-- A fresh zero-initialized encoder state (`mem_zalloc`). -/
def videncZero (prm : VidencParam) (cid : CodecId) : VidencState :=
  { encprm := prm, codec_id := cid, sz_max := 0, pts := 0,
    h263 := { picszv := [] },
    h264 := { packetization_mode := 0, profile_idc := 0, profile_iop := 0,
              level_idc := 0, max_fs := 0, max_smbps := 0 } }

/-- `encode_update` (encode.c lines 372-435).  `find_ok` is the outcome
of the external `avcodec_find_encoder` lookup (`init_encoder`); buffer
allocation is modelled as succeeding.  `vc`/`prm` being `none` model NULL
arguments.  The result is the final `*vesp` paired with the returned
error; on the EINVAL paths `*vesp` is not written. -/
def encode_update (find_ok : Bool) (ves : Option VidencState)
    (vc : Option String) (prm : Option VidencParam)
    (fmtp : List (String × String)) : Option VidencState × Cerr :=
  match vc, prm with
  | some vcname, some p =>
    match ves with
    | some st => (some st, .ok)
    | none =>
      match avcodec_resolve_codecid vcname with
      | none => (none, .einval)
      | some cid =>
        if !find_ok then (none, .enoent)
        else (some (fmt_param_apply fmtp (videncZero p cid)), .ok)
  | _, _ => (ves, .einval)

/-- `decode_update` (decode.c lines 80-119).  `init_ok` is the outcome of
the external decoder lookup/open (`init_decoder`); allocation is modelled
as succeeding.  The fmtp string is unused by the C function. -/
def decode_update (init_ok : Bool) (vds : Option ViddecState)
    (vc : Option String) (_fmtp : String) : Option ViddecState × Cerr :=
  match vc with
  | none => (vds, .einval)
  | some name =>
    match vds with
    | some st => (some st, .ok)
    | none =>
      match avcodec_resolve_codecid name with
      | none => (none, .einval)
      | some _ => if init_ok then (some ⟨[], false⟩, .ok) else (none, .enoent)

/-- `general_packetize` inner loop (encode.c lines 265-285), with fuel:
each iteration sends `min left pktsize` bytes, flagging the packet as
last when the remainder is strictly shorter than the packet size.  With
`pktsize = 0` the C loop never terminates; the fuel (set to the buffer
length by the wrapper, enough for any `pktsize ≥ 1`) only exists to make
the model total.  The result collects the packet-callback invocations
(flag, payload) in order, stopping early if the callback errors. -/
def gp_go (pkth : Bool → List Nat → Cerr) (pktsize : Nat) :
    Nat → List Nat → Cerr × List (Bool × List Nat)
  | _, [] => (.ok, [])
  | 0, _ :: _ => (.ok, [])
  | fuel + 1, mb =>
    let left := mb.length
    let last := decide (left < pktsize)
    let sz := if last then left else pktsize
    let e := pkth last (mb.take sz)
    match e with
    | .ok => let r := gp_go pkth pktsize fuel (mb.drop sz)
             (r.1, (last, mb.take sz) :: r.2)
    | _ => (e, [(last, mb.take sz)])

/-- `general_packetize` (encode.c lines 265-285): split the encoded frame
into chunks of the negotiated packet size, with no per-packet header. -/
def general_packetize (pkth : Bool → List Nat → Cerr) (pktsize : Nat)
    (mb : List Nat) : Cerr × List (Bool × List Nat) :=
  gp_go pkth pktsize mb.length mb

/-- Pixel formats exchanged with capture/display (`enum vidfmt`); only
the canonical planar YUV 4:2:0 format is distinguished. -/
inductive VidFmt where
  | yuv420p
  | rgb32
  | otherFmt
  deriving DecidableEq

/-- A video frame (`struct vidframe`): pixel format, dimensions, and the
pixel data abstracted as an opaque identifier. -/
structure VidFrame where
  fmt : VidFmt
  w : Nat
  h : Nat
  data : Nat

/-- RTP timestamp clock rate and mute bound (video.c lines 31-34). -/
def SRATE : Nat := 90000

def MAX_MUTED_FRAMES : Nat := 3

/-- Transmit side (`struct vtx` in video.c).  Pointer-valued fields are
modelled as options or opaque values; the lock and the parent pointer are
not part of the state.  `mute_frame` is the white image allocated by
`set_encoder_format`, canonical YUV 4:2:0 at the source size (the C field
is a pointer, non-NULL once the stream is started). -/
structure Vtx where
  vc : Option Nat
  enc : Bool
  fps : Nat
  orient : Nat
  vsrc_size_w : Nat
  vsrc_size_h : Nat
  vsrc : Option Nat
  frame : Option VidFrame
  mute_frame : VidFrame
  mb : List Nat
  muted_frames : Nat
  ts_tx : Nat
  picup : Bool
  muted : Bool
  frames : Nat
  efps : Nat

/-- Receive side (`struct vrx` in video.c), reduced to the fields the
claims mention. -/
structure Vrx where
  vc : Option Nat
  dec : Bool
  orient : Nat
  fullscreen : Bool
  pt_rx : Int
  frames : Nat
  efps : Nat

/-- The generic video stream (`struct video`). -/
structure Video where
  vtx : Vtx
  vrx : Vrx
  nack_pli : Bool

/-- `encode_rtp_send` (video.c lines 190-240).  External collaborators
are parameters: `filters_ok` is the combined outcome of the filter-chain
encode hooks, `ench_err` the payload encoder outcome (`vtx->vc->ench`);
frame-buffer allocation is modelled as succeeding.  The second result
component records the payload-encoder invocation — `some (update, f)`
when `ench` was called with force-keyframe flag `update` on frame `f`,
`none` when the call never reached the encoder. -/
def encode_rtp_send (filters_ok : Bool) (ench_err : Cerr) (vtx : Vtx)
    (frame : VidFrame) : Vtx × Option (Bool × VidFrame) :=
  if !vtx.enc then (vtx, none)
  else
    let needconv := frame.fmt ≠ VidFmt.yuv420p ∨
      frame.w ≠ vtx.vsrc_size_w ∨ frame.h ≠ vtx.vsrc_size_h
    let vtx1 := if needconv then
        { vtx with frame := some ⟨VidFmt.yuv420p, vtx.vsrc_size_w,
                                  vtx.vsrc_size_h, frame.data⟩ }
      else vtx
    let frame1 := if needconv then
        ⟨VidFmt.yuv420p, vtx.vsrc_size_w, vtx.vsrc_size_h, frame.data⟩
      else frame
    if !filters_ok then (vtx1, none)
    else
      match ench_err with
      | .ok => ({ vtx1 with ts_tx := (vtx1.ts_tx + SRATE / vtx1.fps) % 2 ^ 32,
                            picup := false },
                some (vtx1.picup, frame1))
      | _ => (vtx1, some (vtx1.picup, frame1))

/-- `vidsrc_frame_handler` (video.c lines 248-264): count the frame,
substitute the mute image when muted, stop delivering after
MAX_MUTED_FRAMES muted frames, otherwise encode and send and count the
muted frame. -/
def vidsrc_frame_handler (filters_ok : Bool) (ench_err : Cerr) (vtx : Vtx)
    (captured : VidFrame) : Vtx × Option (Bool × VidFrame) :=
  let vtx1 := { vtx with frames := vtx.frames + 1 }
  let frame := if vtx1.muted then vtx1.mute_frame else captured
  if vtx1.muted ∧ MAX_MUTED_FRAMES ≤ vtx1.muted_frames then (vtx1, none)
  else
    let r := encode_rtp_send filters_ok ench_err vtx1 frame
    ({ r.1 with muted_frames := r.1.muted_frames + 1 }, r.2)

/-- Feed a list of captured frames through `vidsrc_frame_handler`,
collecting each call's payload-encoder invocation. -/
def feed_frames (filters_ok : Bool) (ench_err : Cerr) (vtx : Vtx) :
    List VidFrame → Vtx × List (Option (Bool × VidFrame))
  | [] => (vtx, [])
  | f :: fs =>
    let r := vidsrc_frame_handler filters_ok ench_err vtx f
    let rr := feed_frames filters_ok ench_err r.1 fs
    (rr.1, r.2 :: rr.2)

/-- `video_update_picture` (video.c lines 876-881). -/
def video_update_picture (v : Video) : Video :=
  { v with vtx := { v.vtx with picup := true } }

/-- `video_mute` (video.c lines 700-714): set the mute flag, reset the
muted-frame counter, request a picture update. -/
def video_mute (v : Video) (muted : Bool) : Video :=
  let vtx := v.vtx
  let vtx1 := { vtx with muted := muted, muted_frames := 0, picup := true }
  video_update_picture { v with vtx := vtx1 }

/-- RTCP packet types and the PLI feedback subtype (libre re_rtp.h,
modelled from the spec: Full-Intra-Request, Payload-Specific Feedback,
Picture-Loss-Indication). -/
def RTCP_FIR : Nat := 192

def RTCP_PSFB : Nat := 206

def RTCP_PSFB_PLI : Nat := 1

/-- The RTCP message header fields read by `rtcp_handler`: packet type
and the count field (the feedback subtype for PSFB). -/
structure RtcpMsg where
  pt : Nat
  count : Nat

/-- `rtcp_handler` (video.c lines 432-450): FIR, or PSFB with the PLI
subtype, sets the transmit side's pending-keyframe flag. -/
def rtcp_handler (v : Video) (msg : RtcpMsg) : Video :=
  if msg.pt = RTCP_FIR then { v with vtx := { v.vtx with picup := true } }
  else if msg.pt = RTCP_PSFB then
    if msg.count = RTCP_PSFB_PLI then
      { v with vtx := { v.vtx with picup := true } }
    else v
  else v

/-- C10: for every boolean m, `video_mute v m` sets the transmit side's
muted flag to m, resets the muted-frame counter to zero and sets the
pending-keyframe flag to true (also when unmuting), and modifies no other
field of the stream — expressed as a record-update equation covering the
whole `Video` state. -/
theorem video_mute_effect (v : Video) (m : Bool) :
    video_mute v m =
      { v with vtx := { v.vtx with muted := m, muted_frames := 0,
                                   picup := true } } := rfl

/-- C9: `encode_update` and `decode_update` are idempotent: called with a
state pointer that already refers to an allocated state (and non-NULL
codec/parameter arguments), each returns 0 and leaves the state
unchanged, regardless of the codec, parameters and fmtp of the second
call. -/
theorem update_calls_idempotent :
    (∀ (find_ok : Bool) (st : VidencState) (vc : String) (prm : VidencParam)
       (fmtp : List (String × String)),
       encode_update find_ok (some st) (some vc) (some prm) fmtp =
         (some st, Cerr.ok)) ∧
    (∀ (init_ok : Bool) (st : ViddecState) (vc : String) (fmtp : String),
       decode_update init_ok (some st) (some vc) fmtp =
         (some st, Cerr.ok)) :=
  ⟨fun _ _ _ _ _ => rfl, fun _ _ _ _ => rfl⟩

/-- C8: H.263 fmtp decoding never fails — `decode_sdpparam_h263` returns
0 on every attribute, and appends a (picture size, MPI) entry exactly
when the name maps to a known size, the parsed MPI (read as a C int)
lies in 1..32, and fewer than 8 entries are stored; otherwise the stored
entries are unchanged. -/
theorem h263_fmtp_never_fails (st : VidencState) (name val : String) :
    decode_sdpparam_h263 st name val =
      (if h263_fmt name ≠ H263Fmt.other ∧
          1 ≤ uint32AsInt (pl_u32 val) ∧ uint32AsInt (pl_u32 val) ≤ 32 ∧
          st.h263.picszv.length < 8
       then { st with h263 := ⟨st.h263.picszv ++
               [⟨h263_fmt name, (uint32AsInt (pl_u32 val)).toNat⟩]⟩ }
       else st,
       Cerr.ok) := by
  unfold decode_sdpparam_h263
  split_ifs <;> first | rfl | (simp_all; omega) | simp_all

/-- C3 counterexample: the claim says a nonzero packetization-mode (or a
profile-level-id that is not 6 hex characters) makes the negotiation
fail with a nonzero error returned to the caller of `encode_update`.  In
fact `param_handler` discards the error, so `encode_update` returns 0
for the fmtp attribute packetization-mode=1; and a 6-character
profile-level-id of non-hex characters is not rejected even by
`decode_sdpparam_h264` (only the length is checked). -/
theorem h264_negotiation_reject_cex :
    (encode_update true none (some "H264") (some ⟨512000, 1300, 30, -1⟩)
        [("packetization-mode", "1")]).2 = Cerr.ok ∧
    (decode_sdpparam_h264 (videncZero ⟨512000, 1300, 30, -1⟩ CodecId.h264)
        "profile-level-id" "zzzzzz").2 = Cerr.ok := ⟨rfl, rfl⟩

/-- C3 (amended): `decode_sdpparam_h264` itself rejects with EPROTO
exactly a nonzero packetization-mode or a profile-level-id whose length
is not 6 (hex-ness of the characters is not checked), and accepts
packetization-mode 0; but its error is discarded by `param_handler`
(whose callback type returns void), so the error returned by
`encode_update` is independent of the fmtp attributes and negotiation
never fails because of them. -/
theorem h264_fmtp_reject_discarded :
    (∀ (st : VidencState) (val : String),
       (decode_sdpparam_h264 st "packetization-mode" val).2 =
         if pl_u32 val ≠ 0 then Cerr.eproto else Cerr.ok) ∧
    (∀ (st : VidencState) (val : String),
       (decode_sdpparam_h264 st "profile-level-id" val).2 =
         if val.data.length ≠ 6 then Cerr.eproto else Cerr.ok) ∧
    (∀ (find_ok : Bool) (vc : String) (prm : VidencParam)
       (fmtp : List (String × String)),
       (encode_update find_ok none (some vc) (some prm) fmtp).2 =
         (encode_update find_ok none (some vc) (some prm) []).2) := by
  refine ⟨fun st val => rfl, fun st val => ?_, fun find_ok vc prm fmtp => ?_⟩
  · have e1 : strCaseEq "profile-level-id" "packetization-mode" = false := rfl
    have e2 : strCaseEq "profile-level-id" "profile-level-id" = true := rfl
    by_cases h : val.length = 6 <;>
      simp [decode_sdpparam_h264, e1, e2, h]
  · rcases hr : avcodec_resolve_codecid vc with _ | cid <;>
      cases find_ok <;> simp [encode_update, hr]

/-- C1 counterexample: the claim requires EPROTO whenever an SPS and a
PPS have not BOTH been observed, but the code's gate opens on the first
SPS or PPS alone.  Starting from a fresh decoder, feeding a single-NAL
SPS packet (byte 103 = type 7) opens the gate; an end-of-frame decode of
a slice packet then succeeds and produces a frame even though no PPS was
ever observed. -/
theorem h264_gate_sps_only_cex :
    (decode_h264 (fun _ => EngineResult.ok (some 0)) ⟨[], false⟩ false 0
        (some [103, 1, 2, 3])).1 = Cerr.ok ∧
    (decode_h264 (fun _ => EngineResult.ok (some 0)) ⟨[], false⟩ false 0
        (some [103, 1, 2, 3])).2.1.got_keyframe = true ∧
    (decode_h264 (fun _ => EngineResult.ok (some 0))
        ((decode_h264 (fun _ => EngineResult.ok (some 0)) ⟨[], false⟩ false 0
            (some [103, 1, 2, 3])).2.1)
        true 0 (some [101, 9])).1 = Cerr.ok ∧
    (decode_h264 (fun _ => EngineResult.ok (some 0))
        ((decode_h264 (fun _ => EngineResult.ok (some 0)) ⟨[], false⟩ false 0
            (some [103, 1, 2, 3])).2.1)
        true 0 (some [101, 9])).2.2 = some 0 :=
  ⟨rfl, rfl, rfl, rfl⟩

/-- C1 (amended): if the current packet parses and, after it is
processed, the keyframe gate is still closed (no SPS or PPS has been
observed in any packet so far — the gate opens on the first of either),
then an end-of-frame decode call returns EPROTO, produces no output
frame and discards the accumulation buffer, for every engine and every
accumulated payload. -/
theorem h264_decode_not_synchronized (engine : List Nat → EngineResult)
    (st : ViddecState) (s : List Nat) (seq : Nat)
    (hok : (h264_decode st s).1 = Cerr.ok)
    (hgate : (h264_decode st s).2.1.got_keyframe = false) :
    decode_h264 engine st true seq (some s) =
      (Cerr.eproto, ⟨[], false⟩, none) := by
  rcases hh : h264_decode st s with ⟨e, st1, rest⟩
  rw [hh] at hok hgate
  simp only at hok hgate
  subst hok
  simp only [decode_h264, hh, ffdecode, hgate]
  simp [hgate]

/-- C1 witness: a fresh decoder fed a non-SPS/PPS slice packet at
end-of-frame returns EPROTO with no frame. -/
theorem h264_decode_not_synchronized_witness :
    ((h264_decode ⟨[], false⟩ [101, 9]).1 = Cerr.ok ∧
     (h264_decode ⟨[], false⟩ [101, 9]).2.1.got_keyframe = false) ∧
    decode_h264 (fun _ => EngineResult.fail) ⟨[], false⟩ true 0
        (some [101, 9]) = (Cerr.eproto, ⟨[], false⟩, none) :=
  ⟨⟨rfl, rfl⟩, h264_decode_not_synchronized _ _ _ _ rfl rfl⟩

/-- Appending-form characterization of `orLast`: OR-ing into the last
byte of a buffer that ends in `a` replaces that byte by `a ||| x`. -/
theorem orLast_append (pre : List Nat) (a x : Nat) :
    orLast (pre ++ [a]) x = pre ++ [a ||| x] := by
  induction pre with
  | nil => rfl
  | cons pHead pTail ih =>
    rcases hq : pTail ++ [a] with _ | ⟨c, cs⟩
    · exact absurd hq (by simp)
    · show orLast (pHead :: (pTail ++ [a])) x = pHead :: (pTail ++ [a ||| x])
      rw [hq, orLast, ← hq, ih]

/-- C6: for H.263 receive, when a packet whose payload header carries a
nonzero start-bit count `sbit` arrives while the accumulation buffer
ends with the previous packet's last byte `a`, the decoder consumes the
packet's first payload byte `b`, replaces the last buffered byte by
`a ||| (b &&& mask)` with `mask` keeping the low `8 - sbit` bits, and
only then appends the remainder of the payload.  (Stated with the
end-of-frame marker clear, so the merged buffer is observable.) -/
theorem h263_sbit_merge (engine : List Nat → EngineResult)
    (st : ViddecState) (pre : List Nat) (a : Nat) (s : List Nat)
    (hdr : H263Hdr) (b : Nat) (rest2 : List Nat) (seq : Nat)
    (hmb : st.mb = pre ++ [a])
    (hdec : h263_hdr_decode s = some (hdr, b :: rest2))
    (hsb : 0 < hdr.sbit) :
    decode_h263 engine st false seq (some s) =
      (Cerr.ok,
       ⟨pre ++ (a ||| (b &&& (2 ^ (8 - hdr.sbit) - 1))) :: rest2,
        if hdr.i = 0 then true else st.got_keyframe⟩,
       none) := by
  by_cases hi : hdr.i = 0 <;>
    simp [decode_h263, hdec, hi, hsb, ffdecode, hmb, orLast_append]

/-- C6 witness: buffer ending in byte 170, then a mode-A packet with
SBIT 2 whose first payload byte is 255: the last buffered byte becomes
170 ||| (255 &&& 63) = 191 and the remaining payload byte 7 follows. -/
theorem h263_sbit_merge_witness :
    ((⟨[170], false⟩ : ViddecState).mb = [] ++ [170] ∧
     h263_hdr_decode [16, 0, 0, 0, 255, 7] =
       some (⟨0, 0, 2, 0, 0⟩, [255, 7]) ∧
     0 < (⟨0, 0, 2, 0, 0⟩ : H263Hdr).sbit) ∧
    decode_h263 (fun _ => EngineResult.fail) ⟨[170], false⟩ false 0
        (some [16, 0, 0, 0, 255, 7]) =
      (Cerr.ok, ⟨[191, 7], true⟩, none) := by
  refine ⟨⟨rfl, rfl, by decide⟩, ?_⟩
  have h := h263_sbit_merge (fun _ => EngineResult.fail) ⟨[170], false⟩ []
    170 [16, 0, 0, 0, 255, 7] ⟨0, 0, 2, 0, 0⟩ 255 [7] 0 rfl rfl (by decide)
  simpa using h

/-- Feed a list of packets to the H.264 depacketizer in order, without
the end-of-frame marker, stopping at the first error. -/
def feed_packets (engine : List Nat → EngineResult) (st : ViddecState) :
    List (List Nat) → Cerr × ViddecState
  | [] => (.ok, st)
  | p :: ps =>
    match decode_h264 engine st false 0 (some p) with
    | (.ok, st1, _) => feed_packets engine st1 ps
    | (e, st1, _) => (e, st1)

/-- An FU-A fragment, written as its NAL header byte, its FU header byte
and its payload (the packet minus the two consumed header bytes). -/
def fragBytes (fr : Nat × Nat × List Nat) : List Nat :=
  fr.1 :: fr.2.1 :: fr.2.2

/-- Effect of one non-start FU-A fragment: only the payload (minus the
two header bytes) is appended to the accumulation buffer. -/
theorem decode_h264_fu_cont (engine : List Nat → EngineResult)
    (st : ViddecState) (b0 b1 : Nat) (pay : List Nat)
    (hf : (h264_hdr_parse b0).f = 0)
    (ht : (h264_hdr_parse b0).type = H264_NAL_FU_A)
    (hs : (fu_hdr_parse b1).s = false) :
    decode_h264 engine st false 0 (some (b0 :: b1 :: pay)) =
      (Cerr.ok, { st with mb := st.mb ++ pay }, none) := by
  simp [decode_h264, h264_decode, h264_hdr_decode, fu_hdr_decode, ffdecode,
        hf, ht, hs, H264_NAL_FU_A]

/-- Effect of the start FU-A fragment: the start code and the NAL header
byte synthesized from the fragment's NRI bits and the FU header's
original type are written, then the payload is appended. -/
theorem decode_h264_fu_start (engine : List Nat → EngineResult)
    (st : ViddecState) (b0 b1 : Nat) (pay : List Nat)
    (hf : (h264_hdr_parse b0).f = 0)
    (ht : (h264_hdr_parse b0).type = H264_NAL_FU_A)
    (hs : (fu_hdr_parse b1).s = true) :
    decode_h264 engine st false 0 (some (b0 :: b1 :: pay)) =
      (Cerr.ok,
       { st with mb := st.mb ++
           [0, 0, 1, h264_hdr_encode_byte
             ⟨0, (h264_hdr_parse b0).nri, (fu_hdr_parse b1).type⟩] ++ pay },
       none) := by
  have hh : ({ h264_hdr_parse b0 with type := (fu_hdr_parse b1).type }
      : H264Hdr) = ⟨0, (h264_hdr_parse b0).nri, (fu_hdr_parse b1).type⟩ := by
    rw [← hf]
  simp [decode_h264, h264_decode, h264_hdr_decode, fu_hdr_decode, ffdecode,
        hf, ht, hs, H264_NAL_FU_A, hh]

/-- Feeding any number of non-start FU-A fragments appends exactly the
concatenation of their payloads. -/
theorem feed_packets_fu_cont (engine : List Nat → EngineResult)
    (st : ViddecState) (frs : List (Nat × Nat × List Nat))
    (h : ∀ fr ∈ frs, (h264_hdr_parse fr.1).f = 0 ∧
         (h264_hdr_parse fr.1).type = H264_NAL_FU_A ∧
         (fu_hdr_parse fr.2.1).s = false) :
    feed_packets engine st (frs.map fragBytes) =
      (Cerr.ok, { st with mb := st.mb ++
                    (frs.map (fun fr => fr.2.2)).flatten }) := by
  induction frs generalizing st with
  | nil => simp [feed_packets]
  | cons fr frs ih =>
    obtain ⟨hf, ht, hs⟩ := h fr (by simp)
    have hstep := decode_h264_fu_cont engine st fr.1 fr.2.1 fr.2.2 hf ht hs
    simp only [List.map_cons, feed_packets, fragBytes, hstep]
    rw [ih _ (fun x hx => h x (by simp [hx]))]
    simp

/-- C2: for every valid FU-A fragment sequence of one NAL unit — a start
fragment, zero or more middle fragments, an end fragment, all with the
forbidden bit clear and NAL type 28 — fed in order to the depacketizer,
the bytes appended to the accumulation buffer are exactly the start code
0 0 1, one NAL header byte rebuilt from the start fragment's NRI bits
and the FU header's original type, and the concatenation of every
fragment's payload (each minus its two consumed header bytes).  The
keyframe gate and all other state are unchanged. -/
theorem h264_fu_reassembly (engine : List Nat → EngineResult)
    (st : ViddecState) (s0 e0 : Nat × Nat × List Nat)
    (mids : List (Nat × Nat × List Nat))
    (hs0 : (h264_hdr_parse s0.1).f = 0 ∧
           (h264_hdr_parse s0.1).type = H264_NAL_FU_A ∧
           (fu_hdr_parse s0.2.1).s = true ∧ (fu_hdr_parse s0.2.1).e = false)
    (hm : ∀ fr ∈ mids, (h264_hdr_parse fr.1).f = 0 ∧
          (h264_hdr_parse fr.1).type = H264_NAL_FU_A ∧
          (fu_hdr_parse fr.2.1).s = false ∧ (fu_hdr_parse fr.2.1).e = false)
    (he0 : (h264_hdr_parse e0.1).f = 0 ∧
           (h264_hdr_parse e0.1).type = H264_NAL_FU_A ∧
           (fu_hdr_parse e0.2.1).s = false ∧ (fu_hdr_parse e0.2.1).e = true) :
    feed_packets engine st ((s0 :: (mids ++ [e0])).map fragBytes) =
      (Cerr.ok,
       { st with mb := st.mb ++
           ([0, 0, 1, h264_hdr_encode_byte
               ⟨0, (h264_hdr_parse s0.1).nri, (fu_hdr_parse s0.2.1).type⟩] ++
            ((s0 :: (mids ++ [e0])).map (fun fr => fr.2.2)).flatten) }) := by
  have hstep := decode_h264_fu_start engine st s0.1 s0.2.1 s0.2.2
    hs0.1 hs0.2.1 hs0.2.2.1
  simp only [List.map_cons, feed_packets, fragBytes, hstep]
  have hrest : ∀ fr ∈ mids ++ [e0], (h264_hdr_parse fr.1).f = 0 ∧
      (h264_hdr_parse fr.1).type = H264_NAL_FU_A ∧
      (fu_hdr_parse fr.2.1).s = false := by
    intro fr hfr
    rcases List.mem_append.mp hfr with hfr | hfr
    · exact ⟨(hm fr hfr).1, (hm fr hfr).2.1, (hm fr hfr).2.2.1⟩
    · rcases List.mem_singleton.mp hfr with rfl
      exact ⟨he0.1, he0.2.1, he0.2.2.1⟩
  rw [feed_packets_fu_cont engine _ _ hrest]
  simp

/-- C2 witness: a start fragment (header 124, FU byte 133, payload 9 10),
one middle fragment (FU byte 5, payload 11) and an end fragment (FU byte
69, payload 12) reassemble to start code, header byte 101, payload
9 10 11 12. -/
theorem h264_fu_reassembly_witness :
    (((h264_hdr_parse 124).f = 0 ∧ (h264_hdr_parse 124).type = H264_NAL_FU_A ∧
      (fu_hdr_parse 133).s = true ∧ (fu_hdr_parse 133).e = false) ∧
     ((h264_hdr_parse 124).f = 0 ∧ (h264_hdr_parse 124).type = H264_NAL_FU_A ∧
      (fu_hdr_parse 69).s = false ∧ (fu_hdr_parse 69).e = true)) ∧
    feed_packets (fun _ => EngineResult.fail) ⟨[], false⟩
        (((124, 133, [9, 10]) :: ([(124, 5, [11])] ++ [(124, 69, [12])])).map
          fragBytes) =
      (Cerr.ok, ⟨[0, 0, 1, 101, 9, 10, 11, 12], false⟩) := by
  refine ⟨⟨by decide, by decide⟩, ?_⟩
  have h := h264_fu_reassembly (fun _ => EngineResult.fail) ⟨[], false⟩
    (124, 133, [9, 10]) (124, 69, [12]) [(124, 5, [11])]
    (by decide) (by decide) (by decide)
  simpa using h

/-- C5: receiving an RTCP Full-Intra-Request, or a Payload-Specific
Feedback message with the Picture-Loss-Indication subtype, sets the
transmit side's pending-keyframe flag; the very next transmit-path
encode call (here with the filter chain and the payload encoder
succeeding, and an encoder present) invokes the payload encoder with the
force-keyframe flag set and then clears the pending flag. -/
theorem fir_pli_keyframe_consumed (v : Video) (msg : RtcpMsg) (f : VidFrame)
    (hmsg : msg.pt = RTCP_FIR ∨
            (msg.pt = RTCP_PSFB ∧ msg.count = RTCP_PSFB_PLI))
    (henc : v.vtx.enc = true) :
    (rtcp_handler v msg).vtx.picup = true ∧
    (∃ fr, (encode_rtp_send true Cerr.ok (rtcp_handler v msg).vtx f).2 =
       some (true, fr)) ∧
    (encode_rtp_send true Cerr.ok (rtcp_handler v msg).vtx f).1.picup =
      false := by
  have hw : rtcp_handler v msg =
      { v with vtx := { v.vtx with picup := true } } := by
    rcases hmsg with h1 | ⟨h1, h2⟩
    · simp [rtcp_handler, h1]
    · simp [rtcp_handler, h1, h2, RTCP_FIR, RTCP_PSFB, RTCP_PSFB_PLI]
  rw [hw]
  refine ⟨rfl, ?_, ?_⟩ <;>
    by_cases hc : f.fmt ≠ VidFmt.yuv420p ∨ f.w ≠ v.vtx.vsrc_size_w ∨
      f.h ≠ v.vtx.vsrc_size_h <;>
    simp [encode_rtp_send, henc, hc]

/-- C5 witness: a concrete FIR message on a stream with an encoder. -/
theorem fir_pli_keyframe_consumed_witness :
    (((⟨192, 0⟩ : RtcpMsg).pt = RTCP_FIR ∨
      ((⟨192, 0⟩ : RtcpMsg).pt = RTCP_PSFB ∧
       (⟨192, 0⟩ : RtcpMsg).count = RTCP_PSFB_PLI)) ∧
     (⟨⟨none, true, 30, 0, 352, 288, none, none,
        ⟨VidFmt.yuv420p, 352, 288, 0⟩, [], 0, 160, false, false, 0, 0⟩,
       ⟨none, false, 0, false, -1, 0, 0⟩, false⟩ : Video).vtx.enc = true) ∧
    ((rtcp_handler
        ⟨⟨none, true, 30, 0, 352, 288, none, none,
          ⟨VidFmt.yuv420p, 352, 288, 0⟩, [], 0, 160, false, false, 0, 0⟩,
         ⟨none, false, 0, false, -1, 0, 0⟩, false⟩ ⟨192, 0⟩).vtx.picup = true ∧
     (∃ fr, (encode_rtp_send true Cerr.ok
        (rtcp_handler
          ⟨⟨none, true, 30, 0, 352, 288, none, none,
            ⟨VidFmt.yuv420p, 352, 288, 0⟩, [], 0, 160, false, false, 0, 0⟩,
           ⟨none, false, 0, false, -1, 0, 0⟩, false⟩ ⟨192, 0⟩).vtx
        ⟨VidFmt.yuv420p, 352, 288, 1⟩).2 = some (true, fr)) ∧
     (encode_rtp_send true Cerr.ok
        (rtcp_handler
          ⟨⟨none, true, 30, 0, 352, 288, none, none,
            ⟨VidFmt.yuv420p, 352, 288, 0⟩, [], 0, 160, false, false, 0, 0⟩,
           ⟨none, false, 0, false, -1, 0, 0⟩, false⟩ ⟨192, 0⟩).vtx
        ⟨VidFmt.yuv420p, 352, 288, 1⟩).1.picup = false) :=
  ⟨⟨Or.inl rfl, rfl⟩,
   fir_pli_keyframe_consumed _ _ _ (Or.inl rfl) rfl⟩

/-- Invariant run of the frame handler while muted: with the counter at
`vtx.muted_frames`, the i-th incoming frame is delivered to the encoder
as the mute image exactly while the counter stays below the bound, and
nothing is delivered afterwards. -/
theorem feed_frames_muted (caps : List VidFrame) (vtx : Vtx)
    (hm : vtx.muted = true) (he : vtx.enc = true)
    (hf : vtx.mute_frame.fmt = VidFmt.yuv420p)
    (hw : vtx.mute_frame.w = vtx.vsrc_size_w)
    (hh : vtx.mute_frame.h = vtx.vsrc_size_h) :
    (feed_frames true Cerr.ok vtx caps).2.map (fun o => o.map Prod.snd) =
      (List.range caps.length).map
        (fun i => if vtx.muted_frames + i < MAX_MUTED_FRAMES
                  then some vtx.mute_frame else none) := by
  induction caps generalizing vtx with
  | nil => simp [feed_frames]
  | cons c cs ih =>
    by_cases hlim : MAX_MUTED_FRAMES ≤ vtx.muted_frames
    · have hstep : vidsrc_frame_handler true Cerr.ok vtx c =
          ({ vtx with frames := vtx.frames + 1 }, none) := by
        simp [vidsrc_frame_handler, hm, hlim]
      simp only [feed_frames, hstep, List.map_cons, Option.map_none]
      rw [ih { vtx with frames := vtx.frames + 1 } hm he hf hw hh]
      simp only [List.length_cons, List.range_succ_eq_map, List.map_cons,
                 List.map_map, List.cons.injEq]
      refine ⟨?_, ?_⟩
      · rw [if_neg (by simp only [MAX_MUTED_FRAMES] at hlim ⊢; omega)]
        rfl
      · refine List.map_congr_left (fun i _ => ?_)
        simp only [Function.comp_apply]
        rw [if_neg (by simp only [MAX_MUTED_FRAMES] at hlim ⊢; omega),
            if_neg (by simp only [MAX_MUTED_FRAMES] at hlim ⊢; omega)]
    · have hstep : vidsrc_frame_handler true Cerr.ok vtx c =
          ({ vtx with frames := vtx.frames + 1,
                      ts_tx := (vtx.ts_tx + SRATE / vtx.fps) % 2 ^ 32,
                      picup := false,
                      muted_frames := vtx.muted_frames + 1 },
           some (vtx.picup, vtx.mute_frame)) := by
        simp [vidsrc_frame_handler, encode_rtp_send, hm, he, hf, hw, hh, hlim]
      simp only [feed_frames, hstep, List.map_cons, Option.map_some]
      rw [ih { vtx with frames := vtx.frames + 1,
                        ts_tx := (vtx.ts_tx + SRATE / vtx.fps) % 2 ^ 32,
                        picup := false,
                        muted_frames := vtx.muted_frames + 1 } hm he hf hw hh]
      simp only [List.length_cons, List.range_succ_eq_map, List.map_cons,
                 List.map_map, List.cons.injEq]
      refine ⟨?_, ?_⟩
      · rw [if_pos (by simp only [MAX_MUTED_FRAMES] at hlim ⊢; omega)]
        rfl
      · refine List.map_congr_left (fun i _ => ?_)
        simp only [Function.comp_apply]
        have harith : vtx.muted_frames + 1 + i = vtx.muted_frames + (i + 1) := by
          omega
        rw [harith]

/-- C4: after `video_mute` enables mute, the transmit frame handler
substitutes the stored mute image for the captured frame and delivers it
to the payload encoder for exactly the first MAX_MUTED_FRAMES (3)
incoming frames, and delivers nothing for every subsequent incoming
frame; delivery resumes as soon as the muted flag is cleared.  (Stated
with an encoder present, the filter chain succeeding, and the mute image
in the canonical format at the source size, as allocated by
`set_encoder_format`.) -/
theorem mute_bounded_delivery (v : Video) (caps : List VidFrame)
    (he : v.vtx.enc = true)
    (hf : v.vtx.mute_frame.fmt = VidFmt.yuv420p)
    (hw : v.vtx.mute_frame.w = v.vtx.vsrc_size_w)
    (hh : v.vtx.mute_frame.h = v.vtx.vsrc_size_h) :
    (feed_frames true Cerr.ok (video_mute v true).vtx caps).2.map
        (fun o => o.map Prod.snd) =
      (List.range caps.length).map
        (fun i => if i < MAX_MUTED_FRAMES then some v.vtx.mute_frame
                  else none) ∧
    ∀ (w : Vtx) (c : VidFrame), w.muted = false → w.enc = true →
      (vidsrc_frame_handler true Cerr.ok w c).2 ≠ none := by
  constructor
  · rw [feed_frames_muted caps (video_mute v true).vtx rfl he hf hw hh]
    simp [video_mute, video_update_picture]
  · intro w c hwm hwe
    by_cases hc : c.fmt ≠ VidFmt.yuv420p ∨ c.w ≠ w.vsrc_size_w ∨
        c.h ≠ w.vsrc_size_h <;>
      simp [vidsrc_frame_handler, encode_rtp_send, hwm, hwe, hc]

/-- C4 witness: a stream with an encoder and a canonical mute image,
muted and fed four captured frames: the first three deliver the mute
image, the fourth delivers nothing; an unmuted handler always delivers. -/
theorem mute_bounded_delivery_witness :
    ((⟨⟨none, true, 30, 0, 352, 288, none, none,
        ⟨VidFmt.yuv420p, 352, 288, 0⟩, [], 0, 160, false, false, 0, 0⟩,
       ⟨none, false, 0, false, -1, 0, 0⟩, false⟩ : Video).vtx.enc = true ∧
     (⟨⟨none, true, 30, 0, 352, 288, none, none,
        ⟨VidFmt.yuv420p, 352, 288, 0⟩, [], 0, 160, false, false, 0, 0⟩,
       ⟨none, false, 0, false, -1, 0, 0⟩, false⟩ :
         Video).vtx.mute_frame.fmt = VidFmt.yuv420p) ∧
    ((feed_frames true Cerr.ok
        (video_mute
          ⟨⟨none, true, 30, 0, 352, 288, none, none,
            ⟨VidFmt.yuv420p, 352, 288, 0⟩, [], 0, 160, false, false, 0, 0⟩,
           ⟨none, false, 0, false, -1, 0, 0⟩, false⟩ true).vtx
        [⟨VidFmt.yuv420p, 352, 288, 1⟩, ⟨VidFmt.yuv420p, 352, 288, 2⟩,
         ⟨VidFmt.yuv420p, 352, 288, 3⟩, ⟨VidFmt.yuv420p, 352, 288, 4⟩]).2.map
        (fun o => o.map Prod.snd) =
      (List.range 4).map
        (fun i => if i < MAX_MUTED_FRAMES
                  then some (⟨VidFmt.yuv420p, 352, 288, 0⟩ : VidFrame)
                  else none) ∧
     ∀ (w : Vtx) (c : VidFrame), w.muted = false → w.enc = true →
       (vidsrc_frame_handler true Cerr.ok w c).2 ≠ none) :=
  ⟨⟨rfl, rfl⟩,
   mute_bounded_delivery _ _ rfl rfl rfl rfl⟩

/-- C7 counterexample: a 2-byte frame packetized at packet size 2 is
sent as a single chunk — necessarily the final chunk of the frame — with
the last-packet flag false, because the loop flags a chunk as last only
when the remainder is strictly shorter than the packet size.  This
refutes the claim that the flag is true on exactly the final chunk. -/
theorem general_packetize_exact_multiple_cex :
    general_packetize (fun _ _ => Cerr.ok) 2 [7, 7] =
      (Cerr.ok, [(false, [7, 7])]) := rfl

/-- Behaviour of one `gp_go` run with enough fuel: the callback
invocations concatenate back to the buffer; all non-final chunks are
exactly `pktsize` bytes with the flag false; the final chunk is nonempty,
at most `pktsize` bytes, and flagged last exactly when strictly shorter
than `pktsize`. -/
theorem gp_go_spec (pkth : Bool → List Nat → Cerr) (pktsize : Nat)
    (hpk : ∀ b c, pkth b c = Cerr.ok) (hps : 1 ≤ pktsize) :
    ∀ (fuel : Nat) (mb : List Nat), mb ≠ [] → mb.length ≤ fuel →
      (gp_go pkth pktsize fuel mb).1 = Cerr.ok ∧
      ((gp_go pkth pktsize fuel mb).2.map Prod.snd).flatten = mb ∧
      (gp_go pkth pktsize fuel mb).2 ≠ [] ∧
      (∀ pr ∈ (gp_go pkth pktsize fuel mb).2.dropLast,
         pr.1 = false ∧ pr.2.length = pktsize) ∧
      (∀ lastc, (gp_go pkth pktsize fuel mb).2.getLast? = some lastc →
         0 < lastc.2.length ∧ lastc.2.length ≤ pktsize ∧
         (lastc.1 = true ↔ lastc.2.length < pktsize)) := by
  intro fuel
  induction fuel with
  | zero =>
    intro mb hne hlen
    rcases mb with _ | ⟨m, ms⟩
    · exact absurd rfl hne
    · simp at hlen
  | succ fuel ih =>
    intro mb hne hlen
    rcases mb with _ | ⟨m, ms⟩
    · exact absurd rfl hne
    · rcases Nat.lt_or_ge (ms.length + 1) pktsize with hlt | hge
      · have hres : gp_go pkth pktsize (fuel + 1) (m :: ms) =
            (Cerr.ok, [(true, m :: ms)]) := by
          simp [gp_go, hpk, hlt]
        rw [hres]
        refine ⟨rfl, by simp, by simp, by simp, ?_⟩
        intro lastc hl
        simp at hl
        rw [← hl]
        exact ⟨by simp, by simp; omega, by simp; omega⟩
      · have hnlt : ¬ (ms.length + 1 < pktsize) := Nat.not_lt.mpr hge
        rcases Nat.eq_or_lt_of_le hge with heq | hgt
        · have hres : gp_go pkth pktsize (fuel + 1) (m :: ms) =
              (Cerr.ok, [(false, m :: ms)]) := by
            subst heq
            simp [gp_go, hpk]
          rw [hres]
          refine ⟨rfl, by simp, by simp, by simp, ?_⟩
          intro lastc hl
          simp at hl
          rw [← hl]
          exact ⟨by simp, by simp; omega, by simp; omega⟩
        · have hres : gp_go pkth pktsize (fuel + 1) (m :: ms) =
              ((gp_go pkth pktsize fuel ((m :: ms).drop pktsize)).1,
               (false, (m :: ms).take pktsize) ::
                 (gp_go pkth pktsize fuel ((m :: ms).drop pktsize)).2) := by
            simp [gp_go, hpk, hnlt]
          have hne2 : (m :: ms).drop pktsize ≠ [] := by
            have hpos : 0 < ((m :: ms).drop pktsize).length := by
              rw [List.length_drop]
              simp only [List.length_cons]
              omega
            exact List.length_pos.mp hpos
          have hlen2 : ((m :: ms).drop pktsize).length ≤ fuel := by
            rw [List.length_drop]
            simp only [List.length_cons] at hlen ⊢
            omega
          obtain ⟨ih1, ih2, ih3, ih4, ih5⟩ := ih ((m :: ms).drop pktsize) hne2 hlen2
          rcases hx : (gp_go pkth pktsize fuel ((m :: ms).drop pktsize)).2
            with _ | ⟨x, xs⟩
          · exact absurd hx ih3
          · rw [hx] at ih2 ih4 ih5
            rw [hres, hx]
            refine ⟨ih1, ?_, by simp, ?_, ?_⟩
            · simp only [List.map_cons, List.flatten_cons] at ih2 ⊢
              rw [ih2, List.take_append_drop]
            · intro pr hpr
              rw [List.dropLast_cons₂] at hpr
              rcases List.mem_cons.mp hpr with rfl | hpr
              · refine ⟨rfl, ?_⟩
                rw [List.length_take]
                simp only [List.length_cons]
                omega
              · exact ih4 pr hpr
            · intro lastc hl
              rw [List.getLast?_cons_cons] at hl
              exact ih5 lastc hl

/-- C7 (amended): for every nonempty buffer and packet size P ≥ 1, the
MPEG-4 packetizer `general_packetize` (with an always-succeeding packet
callback) invokes the callback on consecutive chunks whose concatenation
is byte-identical to the buffer; every chunk except the final one has
exactly P bytes and is flagged not-last; the final chunk is nonempty, at
most P bytes, and its last-packet flag is true exactly when it is
strictly shorter than P — so when P divides the buffer length the final
chunk is NOT flagged (this is where the original claim fails). -/
theorem general_packetize_chunks (pkth : Bool → List Nat → Cerr)
    (pktsize : Nat) (mb : List Nat)
    (hpk : ∀ b c, pkth b c = Cerr.ok) (hps : 1 ≤ pktsize) (hne : mb ≠ []) :
    (general_packetize pkth pktsize mb).1 = Cerr.ok ∧
    ((general_packetize pkth pktsize mb).2.map Prod.snd).flatten = mb ∧
    (general_packetize pkth pktsize mb).2 ≠ [] ∧
    (∀ pr ∈ (general_packetize pkth pktsize mb).2.dropLast,
       pr.1 = false ∧ pr.2.length = pktsize) ∧
    (∀ lastc, (general_packetize pkth pktsize mb).2.getLast? = some lastc →
       0 < lastc.2.length ∧ lastc.2.length ≤ pktsize ∧
       (lastc.1 = true ↔ lastc.2.length < pktsize)) :=
  gp_go_spec pkth pktsize hpk hps mb.length mb hne (Nat.le_refl _)

/-- C7 witness: a 3-byte frame at packet size 2 splits into a full
not-last chunk and a shorter final chunk flagged last. -/
theorem general_packetize_chunks_witness :
    ((∀ b c, (fun _ _ => Cerr.ok : Bool → List Nat → Cerr) b c = Cerr.ok) ∧
     1 ≤ 2 ∧ ([1, 2, 3] : List Nat) ≠ []) ∧
    ((general_packetize (fun _ _ => Cerr.ok) 2 [1, 2, 3]).1 = Cerr.ok ∧
     ((general_packetize (fun _ _ => Cerr.ok) 2 [1, 2, 3]).2.map
        Prod.snd).flatten = [1, 2, 3] ∧
     (general_packetize (fun _ _ => Cerr.ok) 2 [1, 2, 3]).2 ≠ [] ∧
     (∀ pr ∈ (general_packetize (fun _ _ => Cerr.ok) 2 [1, 2, 3]).2.dropLast,
        pr.1 = false ∧ pr.2.length = 2) ∧
     (∀ lastc, (general_packetize (fun _ _ => Cerr.ok) 2
          [1, 2, 3]).2.getLast? = some lastc →
        0 < lastc.2.length ∧ lastc.2.length ≤ 2 ∧
        (lastc.1 = true ↔ lastc.2.length < 2))) :=
  ⟨⟨fun _ _ => rfl, by decide, by decide⟩,
   general_packetize_chunks _ _ _ (fun _ _ => rfl) (by decide) (by decide)⟩
